import Mathlib

/-!
Verification development for a Django time-tracking application
(`time_tracking` app: models, filters, forms, views, web_views).

The Python source is shallowly embedded:
* dates are Gregorian triples `(year, month, day)` with the proleptic
  ordinal map `Date.toOrd` (Python's `date.toordinal`), since Python date
  comparison and `timedelta` arithmetic are defined through ordinals;
* durations are integer seconds; fractional hours are rationals
  (`seconds / 3600`);
* the data store is a pair of lists (tasks, records); Django querysets
  become list filters, `get_object_or_404` becomes `List.find?`.
-/

namespace TimeTracking

/-- Gregorian leap-year test, as used by Python's `datetime.date`. -/
def isLeap (y : Nat) : Bool :=
  (y % 4 == 0 && y % 100 != 0) || y % 400 == 0

/-- Number of days in month `m` (1..12) of a year with leap flag `leap`. -/
def daysInMonthL (leap : Bool) (m : Nat) : Nat :=
  match m with
  | 1 => 31
  | 2 => if leap then 29 else 28
  | 3 => 31
  | 4 => 30
  | 5 => 31
  | 6 => 30
  | 7 => 31
  | 8 => 31
  | 9 => 30
  | 10 => 31
  | 11 => 30
  | _ => 31

/-- Days strictly before month `m` within a year with leap flag `leap`. -/
def daysBeforeMonthL (leap : Bool) (m : Nat) : Nat :=
  (match m with
   | 1 => 0
   | 2 => 31
   | 3 => 59
   | 4 => 90
   | 5 => 120
   | 6 => 151
   | 7 => 181
   | 8 => 212
   | 9 => 243
   | 10 => 273
   | 11 => 304
   | _ => 334) +
  (if leap ∧ 3 ≤ m then 1 else 0)

/-- Number of leap years among `1 .. y-1`. -/
def leapsBefore (y : Nat) : Nat :=
  (y - 1) / 4 - (y - 1) / 100 + (y - 1) / 400

/-- Days strictly before January 1 of year `y` (counting from day 1 =
January 1 of year 1, as Python's `date.toordinal` does). -/
def daysBeforeYear (y : Nat) : Nat :=
  365 * (y - 1) + leapsBefore y

/-- A calendar date, mirroring Python's `datetime.date`. -/
structure Date where
  year : Nat
  month : Nat
  day : Nat
deriving DecidableEq, Repr

/-- Validity of a date: what `datetime.date` accepts (`year ≥ 1`). -/
def Date.Valid (d : Date) : Prop :=
  1 ≤ d.year ∧ 1 ≤ d.month ∧ d.month ≤ 12 ∧ 1 ≤ d.day ∧
    d.day ≤ daysInMonthL (isLeap d.year) d.month

instance (d : Date) : Decidable d.Valid := by
  unfold Date.Valid; infer_instance

/-- Python's `date.toordinal`: day 1 is January 1 of year 1. -/
def Date.toOrd (d : Date) : Int :=
  (daysBeforeYear d.year + daysBeforeMonthL (isLeap d.year) d.month + d.day : Nat)

/-- Python's `date.weekday()`: Monday = 0 .. Sunday = 6. -/
def Date.weekday (d : Date) : Int :=
  (d.toOrd + 6) % 7

/-- Length of year `y` in days. -/
def yearLen (y : Nat) : Nat :=
  if isLeap y then 366 else 365

/-- Lexicographic (chronological) strict order on date triples. -/
def Date.lexLt (a b : Date) : Prop :=
  a.year < b.year ∨ (a.year = b.year ∧ (a.month < b.month ∨
    (a.month = b.month ∧ a.day < b.day)))

instance (a b : Date) : Decidable (a.lexLt b) := by
  unfold Date.lexLt; infer_instance

/-- Embedding of the `Task` model (`models.py`). `responsible_user` is the
owning user's id; `creation_date` is an abstract timestamp. -/
structure Task where
  id : Nat
  responsible_user : Nat
  creation_date : Nat
  description : String
  active : Bool
deriving DecidableEq, Repr

/-- Embedding of the `TimeRecord` model (`models.py`). `worked_time` is the
duration in whole seconds; `creation_date` is an abstract timestamp. -/
structure TimeRecord where
  id : Nat
  taskId : Nat
  record_date : Date
  worked_time : Int
  work_description : String
  creation_date : Nat
deriving DecidableEq, Repr

/-- The choice list of the `period` filter declared on `TimeRecordFilter`
(`filters.py`). -/
def periodChoices : List String :=
  ["today", "yesterday", "this_week", "last_week", "this_month", "last_month"]

/-- Embedding of `TimeRecordFilter.filter_period` (`filters.py`). Date
comparison and `timedelta` arithmetic go through ordinals, as Python's
`datetime.date` defines them. -/
def filter_period (value : String) (today : Date) (queryset : List TimeRecord) :
    List TimeRecord :=
  if value = "today" then
    queryset.filter (fun r => decide (r.record_date.toOrd = today.toOrd))
  else if value = "yesterday" then
    let yesterday := today.toOrd - 1
    queryset.filter (fun r => decide (r.record_date.toOrd = yesterday))
  else if value = "this_week" then
    let week_start := today.toOrd - today.weekday
    queryset.filter (fun r => decide (week_start ≤ r.record_date.toOrd))
  else if value = "last_week" then
    let week_start := today.toOrd - (today.weekday + 7)
    let week_end := week_start + 6
    queryset.filter (fun r =>
      decide (week_start ≤ r.record_date.toOrd) && decide (r.record_date.toOrd ≤ week_end))
  else if value = "this_month" then
    let month_start := Date.mk today.year today.month 1
    queryset.filter (fun r => decide (month_start.toOrd ≤ r.record_date.toOrd))
  else if value = "last_month" then
    let last_month_start :=
      if today.month = 1 then Date.mk (today.year - 1) 12 1
      else Date.mk today.year (today.month - 1) 1
    let last_month_end := (Date.mk today.year today.month 1).toOrd - 1
    queryset.filter (fun r =>
      decide (last_month_start.toOrd ≤ r.record_date.toOrd) &&
        decide (r.record_date.toOrd ≤ last_month_end))
  else
    queryset

/-- The period predicate of spec §4.2, stated in the claim's own terms:
each period name maps to a date predicate over the reference date `D`;
`last_month` means "lies in the prior calendar month". -/
def specPeriodPred (period : String) (D rd : Date) : Prop :=
  if period = "today" then rd = D
  else if period = "yesterday" then rd.toOrd = D.toOrd - 1
  else if period = "this_week" then D.toOrd - D.weekday ≤ rd.toOrd
  else if period = "last_week" then
    D.toOrd - (D.weekday + 7) ≤ rd.toOrd ∧ rd.toOrd ≤ D.toOrd - (D.weekday + 7) + 6
  else if period = "this_month" then (Date.mk D.year D.month 1).toOrd ≤ rd.toOrd
  else if period = "last_month" then
    rd.year = (if D.month = 1 then D.year - 1 else D.year) ∧
      rd.month = (if D.month = 1 then 12 else D.month - 1)
  else True

instance (period : String) (D rd : Date) : Decidable (specPeriodPred period D rd) := by
  unfold specPeriodPred
  infer_instance

/-- Embedding of the period handling in the web `record_list` view
(`web_views.py`): only `today`, `this_week` and `this_month` are handled;
the outer guard is Python's `if period:` (non-empty string). -/
def web_period_filter (period : String) (today : Date) (records : List TimeRecord) :
    List TimeRecord :=
  if period ≠ "" then
    if period = "today" then
      records.filter (fun r => decide (r.record_date.toOrd = today.toOrd))
    else if period = "this_week" then
      let week_start := today.toOrd - today.weekday
      records.filter (fun r => decide (week_start ≤ r.record_date.toOrd))
    else if period = "this_month" then
      let month_start := Date.mk today.year today.month 1
      records.filter (fun r => decide (month_start.toOrd ≤ r.record_date.toOrd))
    else records
  else records

/-- Embedding of the SQL `Sum` aggregate as Django exposes it
(`aggregate(total=Sum(...))['total']`): `None` on an empty row set,
otherwise the sum of the values. -/
def aggregateSum (l : List Int) : Option Int :=
  if l = [] then none else some l.sum

/-- Embedding of `Task.total_worked_time` (`models.py`): the aggregate of
`worked_time` over `self.time_records`, with `or timezone.timedelta(0)`
turning a `None` (and a falsy zero) aggregate into the zero duration. -/
def total_worked_time (records : List TimeRecord) (task : Task) : Int :=
  (aggregateSum ((records.filter (fun r => r.taskId == task.id)).map
    (fun r => r.worked_time))).getD 0

/-- Python's `f"{n:02d}"` on a natural number: zero-padded to a minimum
width of two digits (`pad2` is the formatting used in
`TimeRecord.worked_hours`). -/
def pad2 (n : Nat) : String :=
  if n < 10 then "0" ++ toString n else toString n

/-- Embedding of `TimeRecord.worked_hours` (`models.py`) for a
`worked_time` of `total_seconds` whole seconds: integer-divide into hours
and minutes and render `"HH:MM"`. -/
def worked_hours (total_seconds : Nat) : String :=
  let hours := total_seconds / 3600
  let minutes := (total_seconds % 3600) / 60
  pad2 hours ++ ":" ++ pad2 minutes

/-- Spec-side rendering of "zero-padded to 2 digits": literally the two
decimal digits for values below 100, the plain decimal beyond (the
minimum-width semantics of `%02d`). -/
def specTwoDigits (n : Nat) : String :=
  if n < 100 then String.mk [Nat.digitChar (n / 10), Nat.digitChar (n % 10)]
  else toString n

/-- The persistent data store: the Task and TimeRecord tables. -/
structure Store where
  tasks : List Task
  records : List TimeRecord
deriving DecidableEq, Repr

/-- Well-formedness of the store: primary keys are unique per table. -/
def Store.WF (s : Store) : Prop :=
  (s.tasks.map (fun t => t.id)).Nodup ∧ (s.records.map (fun r => r.id)).Nodup

/-- Embedding of `TaskViewSet.get_queryset` (`views.py`): only the
authenticated user's tasks. -/
def taskQueryset (s : Store) (u : Nat) : List Task :=
  s.tasks.filter (fun t => t.responsible_user == u)

/-- The FK join from a record to its task. -/
def findTask (s : Store) (tid : Nat) : Option Task :=
  s.tasks.find? (fun t => t.id == tid)

/-- Embedding of `TimeRecordViewSet.get_queryset` (`views.py`): only
records whose task's responsible user is the authenticated user
(`task__responsible_user=self.request.user`). -/
def recordQueryset (s : Store) (u : Nat) : List TimeRecord :=
  s.records.filter (fun r =>
    (findTask s r.taskId).any (fun t => t.responsible_user == u))

/-- A record's effective owner: its task's responsible user. -/
def recordOwner (s : Store) (r : TimeRecord) : Option Nat :=
  (findTask s r.taskId).map (fun t => t.responsible_user)

/-- DRF `get_object` on the scoped task queryset: `none` is the 404
(NotFound) outcome. -/
def getTask (s : Store) (u : Nat) (pk : Nat) : Option Task :=
  (taskQueryset s u).find? (fun t => t.id == pk)

/-- DRF `get_object` on the scoped record queryset: `none` is the 404
(NotFound) outcome. -/
def getRecord (s : Store) (u : Nat) (pk : Nat) : Option TimeRecord :=
  (recordQueryset s u).find? (fun r => r.id == pk)

/-- Task update through the API/web edit endpoints: fetch from the scoped
queryset (404 when absent), then save the new description and active flag
under the same pk. -/
def updateTask (s : Store) (u : Nat) (pk : Nat) (desc : String) (active : Bool) :
    Option Store :=
  match getTask s u pk with
  | none => none
  | some _ => some { s with tasks := s.tasks.map (fun t =>
      if t.id == pk then { t with description := desc, active := active } else t) }

/-- Task deletion: 404 when outside the scoped queryset, otherwise remove
the task and cascade-delete its records (`on_delete=CASCADE`). -/
def deleteTask (s : Store) (u : Nat) (pk : Nat) : Option Store :=
  match getTask s u pk with
  | none => none
  | some _ => some { tasks := s.tasks.filter (fun t => !(t.id == pk))
                     records := s.records.filter (fun r => !(r.taskId == pk)) }

/-- Record deletion: 404 when outside the scoped queryset. -/
def deleteRecord (s : Store) (u : Nat) (pk : Nat) : Option Store :=
  match getRecord s u pk with
  | none => none
  | some _ => some { s with records := s.records.filter (fun r => !(r.id == pk)) }

/-- Embedding of `TaskViewSet.toggle_status` (`views.py`): fetch the task
from the scoped queryset, negate `active`, save, and return the updated
representation. -/
def toggle_status (s : Store) (u : Nat) (pk : Nat) : Option (Store × Task) :=
  match getTask s u pk with
  | none => none
  | some task =>
    let saved := { task with active := !task.active }
    some ({ s with tasks := s.tasks.map (fun t => if t.id == pk then saved else t) },
      saved)

/-- Stable descending insertion by key. -/
def insertDescBy {α : Type} (key : α → Nat) (x : α) : List α → List α
  | [] => [x]
  | y :: ys => if key y < key x then x :: y :: ys else y :: insertDescBy key x ys

/-- Stable descending sort by key: the embedding of
`order_by('-creation_date')`. -/
def sortDescBy {α : Type} (key : α → Nat) : List α → List α
  | [] => []
  | x :: xs => insertDescBy key x (sortDescBy key xs)

/-- The API dashboard aggregate (`DashboardSerializer`, `serializers.py`). -/
structure DashboardData where
  total_tasks : Nat
  active_tasks : Nat
  total_worked_hours : ℚ
  hours_this_week : ℚ
  hours_this_month : ℚ
  recent_tasks : List Task
  recent_records : List TimeRecord
deriving DecidableEq, Repr

/-- The context of the server-rendered dashboard page (`dashboard`,
`web_views.py`). It has no month aggregate. -/
structure WebDashboardContext where
  total_tasks : Nat
  active_tasks : Nat
  total_hours : ℚ
  week_hours : ℚ
  recent_tasks : List Task
  recent_records : List TimeRecord
deriving DecidableEq, Repr

/-- Embedding of `DashboardViewSet.list` (`views.py`) for a user at the
reference date `today`: task counts, total/week/month hours (seconds
divided by 3600, as exact rationals), the 5 most recent tasks and the 10
most recent records by `creation_date`. -/
def DashboardViewSet.list (s : Store) (user : Nat) (today : Date) : DashboardData :=
  let tasks := s.tasks.filter (fun t => t.responsible_user == user)
  let total_tasks := tasks.length
  let active_tasks := (tasks.filter (fun t => t.active)).length
  let records := s.records.filter (fun r =>
    (findTask s r.taskId).any (fun t => t.responsible_user == user))
  let total_hours := (aggregateSum (records.map (fun r => r.worked_time))).getD 0
  let week_start := today.toOrd - today.weekday
  let week_hours := (aggregateSum ((records.filter (fun r =>
    decide (week_start ≤ r.record_date.toOrd))).map (fun r => r.worked_time))).getD 0
  let month_start := Date.mk today.year today.month 1
  let month_hours := (aggregateSum ((records.filter (fun r =>
    decide (month_start.toOrd ≤ r.record_date.toOrd))).map
      (fun r => r.worked_time))).getD 0
  { total_tasks := total_tasks
    active_tasks := active_tasks
    total_worked_hours := (total_hours : ℚ) / 3600
    hours_this_week := (week_hours : ℚ) / 3600
    hours_this_month := (month_hours : ℚ) / 3600
    recent_tasks := (sortDescBy (fun t => t.creation_date) tasks).take 5
    recent_records := (sortDescBy (fun r => r.creation_date) records).take 10 }

/-- Embedding of the web `dashboard` view (`web_views.py`) for a user at
the reference date `today`: task counts, total and week hours, the 5 most
recent tasks and the 10 most recent records by `creation_date`. No month
aggregate is computed. -/
def dashboard (s : Store) (user : Nat) (today : Date) : WebDashboardContext :=
  let tasks := s.tasks.filter (fun t => t.responsible_user == user)
  let total_tasks := tasks.length
  let active_tasks := (tasks.filter (fun t => t.active)).length
  let records := s.records.filter (fun r =>
    (findTask s r.taskId).any (fun t => t.responsible_user == user))
  let total_hours := (aggregateSum (records.map (fun r => r.worked_time))).getD 0
  let week_start := today.toOrd - today.weekday
  let week_hours := (aggregateSum ((records.filter (fun r =>
    decide (week_start ≤ r.record_date.toOrd))).map (fun r => r.worked_time))).getD 0
  { total_tasks := total_tasks
    active_tasks := active_tasks
    total_hours := (total_hours : ℚ) / 3600
    week_hours := (week_hours : ℚ) / 3600
    recent_tasks := (sortDescBy (fun t => t.creation_date) tasks).take 5
    recent_records := (sortDescBy (fun r => r.creation_date) records).take 10 }

/-- A one-task store with eleven records; the oldest record (by
`creation_date`, so outside the 10 most recent) is dated `d0`, the other
ten are dated 2024-06-18. -/
def c1Store (d0 : Date) : Store :=
  Store.mk [⟨1, 1, 100, "t", true⟩]
    (⟨0, 1, d0, 3600, "w", 0⟩ ::
      (List.range 10).map (fun i => ⟨i + 1, 1, Date.mk 2024 6 18, 3600, "w", i + 1⟩))

/-- Message of the custom positive-duration check (models.py/forms.py). -/
def msgWorkedTimePositive : String := "Worked time must be greater than zero."

/-- Message of the future-date check (models.py/forms.py). -/
def msgFutureDate : String := "Record date cannot be in the future."

/-- Message of Django's `MinValueValidator(timedelta(minutes=1))`. -/
def msgMinWorkedTime : String :=
  "Ensure this value is greater than or equal to 0:01:00."

/-- Embedding of `TimeRecord.clean` (`models.py`). Python truthiness:
`if self.worked_time and ...` skips the check when the duration is exactly
zero (a zero `timedelta` is falsy). The method raises at the first
violated check, so it reports at most one error. -/
def timeRecord_clean (worked_time : Int) (record_date today : Date) :
    Option (String × String) :=
  if worked_time ≠ 0 ∧ worked_time ≤ 0 then
    some ("worked_time", msgWorkedTimePositive)
  else if record_date.toOrd > today.toOrd then
    some ("record_date", msgFutureDate)
  else none

/-- The declared field validator `MinValueValidator(timedelta(minutes=1))`
on `worked_time` (`models.py`), run during field validation. -/
def workedTime_field_errors (worked_time : Int) : List (String × String) :=
  if worked_time < 60 then [("worked_time", msgMinWorkedTime)] else []

/-- `Model.full_clean` as `TimeRecord.save` invokes it before persisting:
field validators, then `clean`, collecting the errors of both. Both the
API serializer save and the web form save end in `TimeRecord.save`. -/
def timeRecord_full_clean (worked_time : Int) (record_date today : Date) :
    List (String × String) :=
  workedTime_field_errors worked_time ++
    (timeRecord_clean worked_time record_date today).toList

/-- Embedding of `TimeRecordForm.clean_worked_time` (`forms.py`): the same
truthiness-guarded positive-duration check as the model's `clean`. -/
def form_clean_worked_time (worked_time : Int) : Option (String × String) :=
  if worked_time ≠ 0 ∧ worked_time ≤ 0 then
    some ("worked_time", msgWorkedTimePositive)
  else none

/-- Embedding of `TimeRecordForm.clean_record_date` (`forms.py`). -/
def form_clean_record_date (record_date today : Date) : Option (String × String) :=
  if record_date.toOrd > today.toOrd then
    some ("record_date", msgFutureDate)
  else none

/-- The web form's validation pass: per-field validators (a failing field
validator skips that field's `clean_*` hook), the form's `clean_*` hooks,
and the model validation that `ModelForm` runs on the instance. -/
def timeRecordForm_errors (worked_time : Int) (record_date today : Date) :
    List (String × String) :=
  (workedTime_field_errors worked_time ++
    (if workedTime_field_errors worked_time = [] then
      (form_clean_worked_time worked_time).toList
    else [])) ++
  (form_clean_record_date record_date today).toList ++
  (timeRecord_clean worked_time record_date today).toList

/-- Embedding of `TimeRecord.save` (`models.py`): run `full_clean` first;
persist (insert, or update by pk) only when validation passes, otherwise
report the errors and leave the store unchanged. -/
def timeRecord_save (s : Store) (r : TimeRecord) (today : Date) :
    Store × List (String × String) :=
  match timeRecord_full_clean r.worked_time r.record_date today with
  | [] =>
    (if s.records.any (fun x => x.id == r.id) then
      { s with records := s.records.map (fun x => if x.id == r.id then r else x) }
    else
      { s with records := s.records ++ [r] }, [])
  | es => (s, es)

theorem daysBeforeMonthL_add_daysInMonthL (leap : Bool) (m : Nat)
    (h1 : 1 ≤ m) (h2 : m ≤ 11) :
    daysBeforeMonthL leap m + daysInMonthL leap m = daysBeforeMonthL leap (m + 1) := by
  interval_cases m <;> cases leap <;> decide

theorem daysBeforeMonthL_twelve (leap : Bool) :
    daysBeforeMonthL leap 12 + daysInMonthL leap 12 = if leap then 366 else 365 := by
  cases leap <;> decide

theorem daysBeforeYear_succ (y : Nat) (hy : 1 ≤ y) :
    daysBeforeYear (y + 1) = daysBeforeYear y + yearLen y := by
  unfold daysBeforeYear leapsBefore yearLen isLeap
  simp only [Bool.or_eq_true, Bool.and_eq_true, beq_iff_eq, bne_iff_ne, ne_eq]
  split <;> omega

theorem daysBeforeYear_mono {y1 y2 : Nat} (h1 : 1 ≤ y1) (h : y1 ≤ y2) :
    daysBeforeYear y1 ≤ daysBeforeYear y2 := by
  induction y2 with
  | zero => omega
  | succ n ih =>
    rcases Nat.lt_or_ge y1 (n + 1) with hlt | hge
    · have hn : 1 ≤ n := by omega
      have := daysBeforeYear_succ n hn
      have := ih (by omega)
      omega
    · have : y1 = n + 1 := by omega
      subst this; exact le_refl _

/-- Within a valid month, the day-of-year offset is bounded by the year length. -/
theorem daysBeforeMonthL_add_day_le (leap : Bool) (m d : Nat)
    (h1 : 1 ≤ m) (h2 : m ≤ 12) (h4 : d ≤ daysInMonthL leap m) :
    daysBeforeMonthL leap m + d ≤ daysBeforeMonthL leap 12 + daysInMonthL leap 12 := by
  interval_cases m <;> cases leap <;> simp [daysInMonthL, daysBeforeMonthL] at * <;> omega

theorem daysBeforeMonthL_month_lt (leap : Bool) (m1 d1 m2 d2 : Nat)
    (hm1 : 1 ≤ m1) (hm2 : m2 ≤ 12) (hlt : m1 < m2)
    (hd1 : d1 ≤ daysInMonthL leap m1) (hd2 : 1 ≤ d2) :
    daysBeforeMonthL leap m1 + d1 < daysBeforeMonthL leap m2 + d2 := by
  have hm1u : m1 ≤ 12 := by omega
  have hm2l : 1 ≤ m2 := by omega
  interval_cases m1 <;> interval_cases m2 <;> cases leap <;>
    simp [daysInMonthL, daysBeforeMonthL] at * <;> omega

/-- The ordinal map is strictly monotone on valid dates. -/
theorem Date.toOrd_lt_toOrd {a b : Date} (ha : a.Valid) (hb : b.Valid)
    (h : a.lexLt b) : a.toOrd < b.toOrd := by
  obtain ⟨hay, ham1, ham2, had1, had2⟩ := ha
  obtain ⟨hby, hbm1, hbm2, hbd1, hbd2⟩ := hb
  rcases h with hy | ⟨hy, hm | ⟨hm, hd⟩⟩
  · -- different years
    have hstep : daysBeforeYear a.year + daysBeforeMonthL (isLeap a.year) a.month + a.day
        ≤ daysBeforeYear (a.year + 1) := by
      have h1 := daysBeforeMonthL_add_day_le (isLeap a.year) a.month a.day ham1 ham2 had2
      have h2 := daysBeforeMonthL_twelve (isLeap a.year)
      have h3 := daysBeforeYear_succ a.year hay
      unfold yearLen at h3
      split at h3 <;> split at h2 <;> simp_all <;> omega
    have hmono : daysBeforeYear (a.year + 1) ≤ daysBeforeYear b.year :=
      daysBeforeYear_mono (by omega) (by omega)
    unfold Date.toOrd
    have : (0:Nat) < daysBeforeMonthL (isLeap b.year) b.month + b.day := by omega
    push_cast
    omega
  · -- same year, different months
    have := daysBeforeMonthL_month_lt (isLeap a.year) a.month a.day b.month b.day
      ham1 hbm2 (by omega) had2 hbd1
    unfold Date.toOrd
    rw [hy] at *
    push_cast
    omega
  · -- same year and month, different days
    unfold Date.toOrd
    rw [hy, hm]
    push_cast
    omega

/-- The ordinal map is injective on valid dates (distinct valid dates have
distinct ordinals). -/
theorem Date.toOrd_inj {a b : Date} (ha : a.Valid) (hb : b.Valid)
    (h : a.toOrd = b.toOrd) : a = b := by
  by_contra hne
  have htri : a.lexLt b ∨ b.lexLt a := by
    unfold Date.lexLt
    have : ¬ (a.year = b.year ∧ a.month = b.month ∧ a.day = b.day) := by
      intro ⟨h1, h2, h3⟩
      exact hne (by cases a; cases b; simp_all)
    omega
  rcases htri with hlt | hlt
  · exact absurd h (ne_of_lt (Date.toOrd_lt_toOrd ha hb hlt))
  · exact absurd h.symm (ne_of_lt (Date.toOrd_lt_toOrd hb ha hlt))

theorem one_le_daysInMonthL (leap : Bool) (m : Nat) : 1 ≤ daysInMonthL leap m := by
  unfold daysInMonthL
  split <;> first | omega | (cases leap <;> simp)

/-- The day before the first of month `m ≥ 2` is the last day of month `m-1`. -/
theorem month_boundary (y m : Nat) (_hy : 1 ≤ y) (hm1 : 2 ≤ m) (hm2 : m ≤ 12) :
    (Date.mk y m 1).toOrd - 1 =
      (Date.mk y (m - 1) (daysInMonthL (isLeap y) (m - 1))).toOrd := by
  unfold Date.toOrd
  have h := daysBeforeMonthL_add_daysInMonthL (isLeap y) (m - 1) (by omega) (by omega)
  have hm : m - 1 + 1 = m := by omega
  rw [hm] at h
  push_cast
  omega

/-- The day before January 1 of year `y ≥ 2` is December 31 of year `y-1`. -/
theorem year_boundary (y : Nat) (hy2 : 2 ≤ y) :
    (Date.mk y 1 1).toOrd - 1 =
      (Date.mk (y - 1) 12 (daysInMonthL (isLeap (y - 1)) 12)).toOrd := by
  unfold Date.toOrd
  have h12 := daysBeforeMonthL_twelve (isLeap (y - 1))
  have hs := daysBeforeYear_succ (y - 1) (by omega)
  have hy1 : y - 1 + 1 = y := by omega
  rw [hy1] at hs
  unfold yearLen at hs
  have h1 : daysBeforeMonthL (isLeap y) 1 = 0 := by
    cases h : isLeap y <;> simp [daysBeforeMonthL]
  rw [h1]
  cases hL : isLeap (y - 1) <;> rw [hL] at h12 hs <;> simp at h12 hs <;> push_cast <;> omega

/-- A valid date lies (by ordinal) between the first and the last day of a
month `(pY, pM)` exactly when its own year and month are `pY` and `pM`. -/
theorem month_window (pY pM : Nat) (hY : 1 ≤ pY) (hm1 : 1 ≤ pM) (hm2 : pM ≤ 12)
    (rd : Date) (hr : rd.Valid) :
    ((Date.mk pY pM 1).toOrd ≤ rd.toOrd ∧
     rd.toOrd ≤ (Date.mk pY pM (daysInMonthL (isLeap pY) pM)).toOrd) ↔
    (rd.year = pY ∧ rd.month = pM) := by
  constructor
  · rintro ⟨h1, h2⟩
    by_contra hne
    have hv1 : (Date.mk pY pM 1).Valid :=
      ⟨hY, hm1, hm2, le_refl 1, one_le_daysInMonthL _ _⟩
    have hv2 : (Date.mk pY pM (daysInMonthL (isLeap pY) pM)).Valid :=
      ⟨hY, hm1, hm2, one_le_daysInMonthL _ _, le_refl _⟩
    rcases Nat.lt_trichotomy rd.year pY with hy | hy | hy
    · have := Date.toOrd_lt_toOrd hr hv1 (Or.inl hy)
      omega
    · rcases Nat.lt_trichotomy rd.month pM with hm | hm | hm
      · have := Date.toOrd_lt_toOrd hr hv1 (Or.inr ⟨hy, Or.inl hm⟩)
        omega
      · exact hne ⟨hy, hm⟩
      · have := Date.toOrd_lt_toOrd hv2 hr (Or.inr ⟨hy.symm, Or.inl hm⟩)
        omega
    · have := Date.toOrd_lt_toOrd hv2 hr (Or.inl hy)
      omega
  · rintro ⟨h1, h2⟩
    obtain ⟨_, _, _, hd1, hd2⟩ := hr
    subst h1
    subst h2
    unfold Date.toOrd
    push_cast
    omega

/-- The `last_month` interval of `filters.py` (from the first of the prior
month through the day before the first of the current month) contains a
valid date exactly when that date lies in the prior calendar month, with
the December→January rollover handled. -/
theorem lastMonth_window (D rd : Date) (hD : D.Valid) (hD2 : 2 ≤ D.year)
    (hr : rd.Valid) :
    ((if D.month = 1 then Date.mk (D.year - 1) 12 1
      else Date.mk D.year (D.month - 1) 1).toOrd ≤ rd.toOrd ∧
     rd.toOrd ≤ (Date.mk D.year D.month 1).toOrd - 1) ↔
    (rd.year = (if D.month = 1 then D.year - 1 else D.year) ∧
     rd.month = (if D.month = 1 then 12 else D.month - 1)) := by
  obtain ⟨h1, h2, h3, _⟩ := hD
  by_cases hm : D.month = 1
  · simp only [hm, eq_self_iff_true, if_true]
    rw [year_boundary D.year hD2]
    exact month_window (D.year - 1) 12 (by omega) (by omega) (by omega) rd hr
  · simp only [if_neg hm]
    rw [month_boundary D.year D.month (by omega) (by omega) h3]
    exact month_window D.year (D.month - 1) (by omega) (by omega) (by omega) rd hr

/-- C3: for every valid reference date `D` (with a representable prior
month, i.e. year ≥ 2) and every recognized period name, the period filter
keeps exactly the records whose valid `record_date` satisfies the §4.2
predicate; in particular `last_month` keeps exactly the prior calendar
month, including the December→January year rollover. -/
theorem claim_C3_period_filter_matches_spec (period : String) (D : Date)
    (hD : D.Valid) (hD2 : 2 ≤ D.year) (hp : period ∈ periodChoices)
    (queryset : List TimeRecord) (hq : ∀ r ∈ queryset, r.record_date.Valid)
    (r : TimeRecord) :
    r ∈ filter_period period D queryset ↔
      r ∈ queryset ∧ specPeriodPred period D r.record_date := by
  simp only [periodChoices, List.mem_cons, List.mem_singleton, List.not_mem_nil,
    or_false] at hp
  rcases hp with h | h | h | h | h | h <;> subst h <;>
      simp only [filter_period, specPeriodPred, List.mem_filter, decide_eq_true_eq,
        Bool.and_eq_true, reduceIte, String.reduceEq] <;>
    first
      | exact Iff.rfl
      | exact ⟨fun ⟨hr, h⟩ => ⟨hr, Date.toOrd_inj (hq r hr) hD h⟩,
          fun ⟨hr, h⟩ => ⟨hr, by rw [h]⟩⟩
      | exact and_congr_right fun hr => lastMonth_window D r.record_date hD hD2 (hq r hr)

/-- Witness for C3: reference date 2024-01-15 (January), record date
2023-12-31, period `last_month`: the record is kept and satisfies the
prior-calendar-month predicate across the year rollover. -/
theorem claim_C3_period_filter_matches_spec_witness :
    (⟨1, 1, Date.mk 2023 12 31, 3600, "w", 0⟩ : TimeRecord) ∈
      filter_period "last_month" (Date.mk 2024 1 15)
        [⟨1, 1, Date.mk 2023 12 31, 3600, "w", 0⟩] := by
  have h := claim_C3_period_filter_matches_spec "last_month" (Date.mk 2024 1 15)
    (by decide) (by decide) (by decide)
    [(⟨1, 1, Date.mk 2023 12 31, 3600, "w", 0⟩ : TimeRecord)]
    (by intro x hx; rcases List.mem_singleton.mp hx with rfl; decide)
    ⟨1, 1, Date.mk 2023 12 31, 3600, "w", 0⟩
  exact h.mpr ⟨List.mem_singleton.mpr rfl, by decide⟩

/-- C6: an unrecognized period value applies no filtering: both the API
filter method and the web record-list view pass the collection through
unchanged, silently. -/
theorem claim_C6_unrecognized_period_noop (value : String)
    (hv : value ∉ periodChoices) (today : Date) (qs : List TimeRecord) :
    filter_period value today qs = qs ∧ web_period_filter value today qs = qs := by
  simp only [periodChoices, List.mem_cons, List.mem_singleton, List.not_mem_nil,
    or_false, not_or] at hv
  obtain ⟨h1, h2, h3, h4, h5, h6⟩ := hv
  refine ⟨?_, ?_⟩
  · unfold filter_period
    rw [if_neg h1, if_neg h2, if_neg h3, if_neg h4, if_neg h5, if_neg h6]
  · unfold web_period_filter
    split <;> simp [h1, h3, h5]

/-- Witness for C6: the value "banana" leaves a nonempty collection
unchanged at both entry points. -/
theorem claim_C6_unrecognized_period_noop_witness :
    filter_period "banana" (Date.mk 2024 6 19)
        [(⟨1, 1, Date.mk 2024 6 18, 3600, "w", 0⟩ : TimeRecord)] =
      [(⟨1, 1, Date.mk 2024 6 18, 3600, "w", 0⟩ : TimeRecord)] ∧
    web_period_filter "banana" (Date.mk 2024 6 19)
        [(⟨1, 1, Date.mk 2024 6 18, 3600, "w", 0⟩ : TimeRecord)] =
      [(⟨1, 1, Date.mk 2024 6 18, 3600, "w", 0⟩ : TimeRecord)] :=
  claim_C6_unrecognized_period_noop "banana" (by decide) (Date.mk 2024 6 19)
    [(⟨1, 1, Date.mk 2024 6 18, 3600, "w", 0⟩ : TimeRecord)]

/-- C10: in the web record-list view, any period value other than
`today`, `this_week`, `this_month` leaves the record collection
unchanged — in particular `yesterday`, `last_week` and `last_month`, even
though the API period filter declares them among its choices. -/
theorem claim_C10_web_period_only_three (period : String)
    (h1 : period ≠ "today") (h2 : period ≠ "this_week")
    (h3 : period ≠ "this_month") (today : Date) (records : List TimeRecord) :
    web_period_filter period today records = records ∧
      "yesterday" ∈ periodChoices ∧ "last_week" ∈ periodChoices ∧
      "last_month" ∈ periodChoices := by
  refine ⟨?_, by decide, by decide, by decide⟩
  unfold web_period_filter
  split <;> simp [h1, h2, h3]

/-- Witness for C10: the API-recognized value `last_month` leaves a
nonempty web record collection unchanged. -/
theorem claim_C10_web_period_only_three_witness :
    web_period_filter "last_month" (Date.mk 2024 6 19)
        [(⟨1, 1, Date.mk 2024 5 18, 3600, "w", 0⟩ : TimeRecord)] =
      [(⟨1, 1, Date.mk 2024 5 18, 3600, "w", 0⟩ : TimeRecord)] :=
  (claim_C10_web_period_only_three "last_month" (by decide) (by decide) (by decide)
    (Date.mk 2024 6 19) [(⟨1, 1, Date.mk 2024 5 18, 3600, "w", 0⟩ : TimeRecord)]).1

/-- C5: for every task, `total_worked_time` equals the sum of
`worked_time` over exactly the records whose task it is, and equals the
zero duration when the task has no records. -/
theorem claim_C5_total_worked_time (records : List TimeRecord) (task : Task) :
    total_worked_time records task =
        ((records.filter (fun r => r.taskId == task.id)).map
          (fun r => r.worked_time)).sum ∧
      (records.filter (fun r => r.taskId == task.id) = [] →
        total_worked_time records task = 0) := by
  constructor
  · unfold total_worked_time aggregateSum
    split
    · rename_i h
      rw [h]
      rfl
    · rfl
  · intro h
    unfold total_worked_time aggregateSum
    rw [h]
    rfl

/-- Witness for C5 at a concrete input: a task with no records has zero
total worked time. -/
theorem claim_C5_total_worked_time_witness :
    total_worked_time [] ⟨1, 1, 0, "t", true⟩ = 0 :=
  (claim_C5_total_worked_time [] ⟨1, 1, 0, "t", true⟩).2 rfl

theorem pad2_eq_specTwoDigits (n : Nat) : pad2 n = specTwoDigits n := by
  unfold pad2 specTwoDigits
  by_cases h1 : n < 10
  · rw [if_pos h1, if_pos (by omega)]
    interval_cases n <;> decide
  · by_cases h2 : n < 100
    · rw [if_neg h1, if_pos h2]
      interval_cases n <;> decide
    · rw [if_neg h1, if_neg h2]

theorem mem_unique_key {α : Type} (k : α → Nat) {l : List α}
    (hnd : (l.map k).Nodup) {x y : α} (hx : x ∈ l) (hy : y ∈ l)
    (hk : k x = k y) : x = y :=
  List.inj_on_of_nodup_map hnd hx hy hk

/-- In a table with unique pks, looking a member up by its pk finds it. -/
theorem find?_key_of_mem {α : Type} (k : α → Nat) {l : List α}
    (hnd : (l.map k).Nodup) {t : α} (hmem : t ∈ l) :
    l.find? (fun x => k x == k t) = some t := by
  induction l with
  | nil => cases hmem
  | cons x xs ih =>
    rw [List.map_cons, List.nodup_cons] at hnd
    by_cases hx : k x = k t
    · have hxt : x = t := by
        rcases List.mem_cons.mp hmem with rfl | hmem'
        · rfl
        · rw [hx] at hnd
          exact absurd (List.mem_map_of_mem k hmem') hnd.1
      rw [List.find?_cons_of_pos _ (by simp [hx]), hxt]
    · have hmem' : t ∈ xs := by
        rcases List.mem_cons.mp hmem with rfl | hmem'
        · exact absurd rfl hx
        · exact hmem'
      rw [List.find?_cons_of_neg _ (by simp [hx])]
      exact ih hnd.2 hmem'

theorem getTask_eq_some_of_mem {s : Store} (hWF : s.WF) {t : Task}
    (hmem : t ∈ s.tasks) (u : Nat) (hu : t.responsible_user = u) :
    getTask s u t.id = some t := by
  unfold getTask taskQueryset
  have hnd : ((s.tasks.filter (fun x => x.responsible_user == u)).map
      (fun t => t.id)).Nodup :=
    List.Nodup.sublist ((List.filter_sublist s.tasks).map (fun y : Task => y.id)) hWF.1
  exact find?_key_of_mem (fun y : Task => y.id) hnd
    (List.mem_filter.mpr ⟨hmem, by simp [hu]⟩)

/-- One successful `toggle_status` call, written out: the store saves the
flipped task under the same pk, and the flipped task is returned. -/
theorem toggle_status_eq {s : Store} {u pk : Nat} {t : Task}
    (h : getTask s u pk = some t) :
    toggle_status s u pk = some
      ({ s with tasks := s.tasks.map (fun x =>
          if x.id == pk then { t with active := !t.active } else x) },
        { t with active := !t.active }) := by
  unfold toggle_status
  rw [h]

/-- C8: one `toggle_status` call negates the task's active flag and a
second call restores it: the operation is an involution on `active`, the
store returns to its initial state, and each call returns the updated
representation of the task. -/
theorem claim_C8_toggle_status_involution (s : Store) (u pk : Nat) (t : Task)
    (hWF : s.WF) (h : getTask s u pk = some t) :
    ∃ s1 t1 s2 t2,
      toggle_status s u pk = some (s1, t1) ∧
      toggle_status s1 u pk = some (s2, t2) ∧
      t1.active = !t.active ∧ t2.active = t.active ∧
      t1 = { t with active := !t.active } ∧ t2 = t ∧ s2 = s := by
  have hid : t.id = pk := by simpa using List.find?_some h
  have hmemq : t ∈ taskQueryset s u := List.mem_of_find?_eq_some h
  have hmem : t ∈ s.tasks := (List.mem_filter.mp hmemq).1
  have hu' : t.responsible_user = u := by
    simpa using (List.mem_filter.mp hmemq).2
  subst hid
  have h1 := toggle_status_eq h
  set t1 : Task := { t with active := !t.active } with ht1def
  set s1 : Store := { s with tasks := s.tasks.map (fun x =>
    if x.id == t.id then t1 else x) } with hs1def
  have hmapkeys : s1.tasks.map (fun x => x.id) = s.tasks.map (fun x => x.id) := by
    rw [hs1def]
    simp only [List.map_map]
    refine List.map_congr_left fun x _ => ?_
    by_cases hx : x.id = t.id <;> simp [Function.comp, ht1def, hx]
  have hWF1 : s1.WF := by
    refine ⟨?_, hWF.2⟩
    rw [hmapkeys]
    exact hWF.1
  have hmem1 : t1 ∈ s1.tasks := by
    rw [hs1def]
    simpa using List.mem_map_of_mem
      (fun x : Task => if x.id == t.id then t1 else x) hmem
  have hget1 : getTask s1 u t.id = some t1 :=
    getTask_eq_some_of_mem hWF1 hmem1 u (by rw [ht1def]; exact hu')
  have h2 := toggle_status_eq hget1
  have ht2 : ({ t1 with active := !t1.active } : Task) = t := by
    rw [ht1def]
    cases t
    simp
  have htasks : s1.tasks.map (fun x => if x.id == t.id then t else x) = s.tasks := by
    rw [hs1def]
    simp only [List.map_map]
    refine (List.map_congr_left ?_).trans (List.map_id _)
    intro x hx
    by_cases hxk : x.id = t.id
    · have hxt : x = t := mem_unique_key (fun y : Task => y.id) hWF.1 hx hmem hxk
      subst hxt
      simp [ht1def]
    · simp [Function.comp, hxk]
  have hs2 : ({ s1 with tasks := s1.tasks.map (fun x =>
      if x.id == t.id then { t1 with active := !t1.active } else x) } : Store) = s := by
    rw [ht2, htasks]
  exact ⟨s1, t1, _, _, h1, h2, rfl, by rw [ht2], ht1def, ht2, hs2⟩

/-- Witness for C8: a concrete one-task store; the first toggle yields
active = false, the second restores the original store and task. -/
theorem claim_C8_toggle_status_involution_witness :
    toggle_status (Store.mk [⟨7, 3, 0, "t", true⟩] []) 3 7 =
      some (Store.mk [⟨7, 3, 0, "t", false⟩] [], ⟨7, 3, 0, "t", false⟩) ∧
    toggle_status (Store.mk [⟨7, 3, 0, "t", false⟩] []) 3 7 =
      some (Store.mk [⟨7, 3, 0, "t", true⟩] [], ⟨7, 3, 0, "t", true⟩) := by
  have h := claim_C8_toggle_status_involution (Store.mk [⟨7, 3, 0, "t", true⟩] []) 3 7
    ⟨7, 3, 0, "t", true⟩ (by constructor <;> decide) (by decide)
  exact ⟨by decide, by decide⟩

/-- C4: ownership isolation. Every task/record visible to user A is
A-owned; any attempt by A to address another user B's task or record by
pk yields NotFound (and the corresponding update/delete/toggle operations
reject without touching the store); and A's querysets and lookups are
identical whether or not other users' data exists in the store. -/
theorem claim_C4_ownership_isolation (s : Store) (A B : Nat) (hAB : A ≠ B)
    (hWF : s.WF) :
    (∀ t ∈ taskQueryset s A, t.responsible_user = A) ∧
    (∀ r ∈ recordQueryset s A, recordOwner s r = some A) ∧
    (∀ t ∈ s.tasks, t.responsible_user = B →
      getTask s A t.id = none ∧
      (∀ d a, updateTask s A t.id d a = none) ∧
      deleteTask s A t.id = none ∧
      toggle_status s A t.id = none) ∧
    (∀ r ∈ s.records, recordOwner s r = some B →
      getRecord s A r.id = none ∧ deleteRecord s A r.id = none) ∧
    (∀ extraT extraR,
      (∀ t ∈ extraT, t.responsible_user ≠ A) →
      (∀ r ∈ extraR, recordOwner
          (Store.mk (s.tasks ++ extraT) (s.records ++ extraR)) r ≠ some A) →
      taskQueryset (Store.mk (s.tasks ++ extraT) (s.records ++ extraR)) A =
          taskQueryset s A ∧
      recordQueryset (Store.mk (s.tasks ++ extraT) (s.records ++ extraR)) A =
          recordQueryset s A ∧
      (∀ pk, getTask (Store.mk (s.tasks ++ extraT) (s.records ++ extraR)) A pk =
          getTask s A pk) ∧
      (∀ pk, getRecord (Store.mk (s.tasks ++ extraT) (s.records ++ extraR)) A pk =
          getRecord s A pk)) := by
  have part1 : ∀ t ∈ taskQueryset s A, t.responsible_user = A := by
    intro t ht
    simpa using (List.mem_filter.mp ht).2
  have part2 : ∀ r ∈ recordQueryset s A, recordOwner s r = some A := by
    intro r hr
    have hp := (List.mem_filter.mp hr).2
    unfold recordOwner
    cases hf : findTask s r.taskId with
    | none =>
      rw [hf] at hp
      simp [Option.any] at hp
    | some t =>
      rw [hf] at hp
      simp only [Option.any] at hp
      simpa using hp
  have hTnone : ∀ t ∈ s.tasks, t.responsible_user = B → getTask s A t.id = none := by
    intro t hmem howner
    unfold getTask
    rw [List.find?_eq_none]
    intro x hx hbeq
    have hxA : x.responsible_user = A := part1 x hx
    have hxmem : x ∈ s.tasks := (List.mem_filter.mp hx).1
    have hid : x.id = t.id := by simpa using hbeq
    have hxt : x = t := mem_unique_key (fun y : Task => y.id) hWF.1 hxmem hmem hid
    subst hxt
    exact hAB (hxA.symm.trans howner)
  have part3 : ∀ t ∈ s.tasks, t.responsible_user = B →
      getTask s A t.id = none ∧
      (∀ d a, updateTask s A t.id d a = none) ∧
      deleteTask s A t.id = none ∧
      toggle_status s A t.id = none := by
    intro t hmem howner
    have hn := hTnone t hmem howner
    refine ⟨hn, fun d a => ?_, ?_, ?_⟩
    · unfold updateTask
      rw [hn]
    · unfold deleteTask
      rw [hn]
    · unfold toggle_status
      rw [hn]
  have hRnone : ∀ r ∈ s.records, recordOwner s r = some B →
      getRecord s A r.id = none := by
    intro r hmem howner
    unfold getRecord
    rw [List.find?_eq_none]
    intro x hx hbeq
    have hxA : recordOwner s x = some A := part2 x hx
    have hxmem : x ∈ s.records := (List.mem_filter.mp hx).1
    have hid : x.id = r.id := by simpa using hbeq
    have hxr : x = r := mem_unique_key (fun y : TimeRecord => y.id) hWF.2 hxmem hmem hid
    subst hxr
    rw [hxA] at howner
    injection howner with howner
    exact hAB howner
  have part4 : ∀ r ∈ s.records, recordOwner s r = some B →
      getRecord s A r.id = none ∧ deleteRecord s A r.id = none := by
    intro r hmem howner
    have hn := hRnone r hmem howner
    refine ⟨hn, ?_⟩
    unfold deleteRecord
    rw [hn]
  refine ⟨part1, part2, part3, part4, ?_⟩
  intro extraT extraR hT hR
  have htq : taskQueryset (Store.mk (s.tasks ++ extraT) (s.records ++ extraR)) A =
      taskQueryset s A := by
    unfold taskQueryset
    show (s.tasks ++ extraT).filter (fun t => t.responsible_user == A) =
      s.tasks.filter (fun t => t.responsible_user == A)
    rw [List.filter_append]
    have hnil : extraT.filter (fun t => t.responsible_user == A) = [] := by
      rw [List.filter_eq_nil_iff]
      intro t ht hbeq
      exact hT t ht (by simpa using hbeq)
    rw [hnil, List.append_nil]
  have hanyeq : ∀ tid,
      ((findTask (Store.mk (s.tasks ++ extraT) (s.records ++ extraR)) tid).any
        (fun t => t.responsible_user == A)) =
      ((findTask s tid).any (fun t => t.responsible_user == A)) := by
    intro tid
    unfold findTask
    show (((s.tasks ++ extraT).find? (fun t => t.id == tid)).any
        (fun t => t.responsible_user == A)) = _
    rw [List.find?_append]
    cases hf : s.tasks.find? (fun t => t.id == tid) with
    | some t => rfl
    | none =>
      cases hg : extraT.find? (fun t => t.id == tid) with
      | none => rfl
      | some t' =>
        have ht' : t'.responsible_user ≠ A := hT t' (List.mem_of_find?_eq_some hg)
        simp [Option.any, ht']
  have hrq : recordQueryset (Store.mk (s.tasks ++ extraT) (s.records ++ extraR)) A =
      recordQueryset s A := by
    unfold recordQueryset
    show (s.records ++ extraR).filter (fun r =>
        (findTask (Store.mk (s.tasks ++ extraT) (s.records ++ extraR)) r.taskId).any
          (fun t => t.responsible_user == A)) = _
    rw [List.filter_append]
    have h1 : s.records.filter (fun r =>
        (findTask (Store.mk (s.tasks ++ extraT) (s.records ++ extraR)) r.taskId).any
          (fun t => t.responsible_user == A)) =
        s.records.filter (fun r =>
          (findTask s r.taskId).any (fun t => t.responsible_user == A)) :=
      List.filter_congr fun r _ => hanyeq r.taskId
    have h2 : extraR.filter (fun r =>
        (findTask (Store.mk (s.tasks ++ extraT) (s.records ++ extraR)) r.taskId).any
          (fun t => t.responsible_user == A)) = [] := by
      rw [List.filter_eq_nil_iff]
      intro r hr hpred
      apply hR r hr
      unfold recordOwner
      cases hf : findTask (Store.mk (s.tasks ++ extraT) (s.records ++ extraR))
          r.taskId with
      | none =>
        rw [hf] at hpred
        simp [Option.any] at hpred
      | some t =>
        rw [hf] at hpred
        simp only [Option.any] at hpred
        simpa using hpred
    rw [h1, h2, List.append_nil]
  refine ⟨htq, hrq, fun pk => ?_, fun pk => ?_⟩
  · unfold getTask
    rw [htq]
  · unfold getRecord
    rw [hrq]

/-- Witness for C4 at a concrete store: user 1 addressing user 2's task
(pk 5) and record (pk 9) gets NotFound, and user 1's task queryset is the
same with and without user 2's data. -/
theorem claim_C4_ownership_isolation_witness :
    getTask (Store.mk [⟨5, 2, 0, "b", true⟩] [⟨9, 5, Date.mk 2024 6 1, 3600, "w", 0⟩])
        1 5 = none ∧
    getRecord (Store.mk [⟨5, 2, 0, "b", true⟩] [⟨9, 5, Date.mk 2024 6 1, 3600, "w", 0⟩])
        1 9 = none := by
  have h := claim_C4_ownership_isolation
    (Store.mk [⟨5, 2, 0, "b", true⟩] [⟨9, 5, Date.mk 2024 6 1, 3600, "w", 0⟩]) 1 2
    (by decide) (by constructor <;> decide)
  exact ⟨(h.2.2.1 ⟨5, 2, 0, "b", true⟩ (by decide) rfl).1,
    (h.2.2.2.1 ⟨9, 5, Date.mk 2024 6 1, 3600, "w", 0⟩ (by decide) (by decide)).1⟩

/-- C7: `worked_hours` of `s` total seconds is `floor(s/3600)` and
`floor((s mod 3600)/60)`, each zero-padded to two digits and joined by
`":"`; 2h30m renders exactly "02:30" and 5m exactly "00:05". -/
theorem claim_C7_worked_hours (s : Nat) :
    worked_hours s =
        specTwoDigits (s / 3600) ++ ":" ++ specTwoDigits (s % 3600 / 60) ∧
      worked_hours (2 * 3600 + 30 * 60) = "02:30" ∧
      worked_hours (5 * 60) = "00:05" := by
  refine ⟨?_, by decide, by decide⟩
  simp only [worked_hours, pad2_eq_specTwoDigits]

/-- Counterexample to C1: at reference date 2024-06-19, moving the oldest
record from 2024-06-05 (this month, before this week) to 2024-05-20 (last
month) leaves the web dashboard page identical but changes the API
dashboard's `hours_this_month`: the page cannot present the same
aggregate, since it computes no month figure. -/
theorem claim_C1_counterexample :
    dashboard (c1Store (Date.mk 2024 6 5)) 1 (Date.mk 2024 6 19) =
      dashboard (c1Store (Date.mk 2024 5 20)) 1 (Date.mk 2024 6 19) ∧
    DashboardViewSet.list (c1Store (Date.mk 2024 6 5)) 1 (Date.mk 2024 6 19) ≠
      DashboardViewSet.list (c1Store (Date.mk 2024 5 20)) 1 (Date.mk 2024 6 19) := by
  constructor
  · rfl
  · intro heq
    have h1 : (DashboardViewSet.list (c1Store (Date.mk 2024 6 5)) 1
        (Date.mk 2024 6 19)).hours_this_month = ((39600 : Int) : ℚ) / 3600 := rfl
    have h2 : (DashboardViewSet.list (c1Store (Date.mk 2024 5 20)) 1
        (Date.mk 2024 6 19)).hours_this_month = ((36000 : Int) : ℚ) / 3600 := rfl
    rw [heq, h2] at h1
    norm_num at h1

/-- C1 (amended): for every user, store and reference date, the
server-rendered dashboard page presents the same total_tasks,
active_tasks, total worked hours, hours this week, 5 most recent tasks
and 10 most recent records as the API dashboard resource, computed over
the same user-scoped collections at the same reference date; the API's
`hours_this_month` has no counterpart on the page. -/
theorem claim_C1_amended_dashboard_refinement (s : Store) (user : Nat) (today : Date) :
    (dashboard s user today).total_tasks =
        (DashboardViewSet.list s user today).total_tasks ∧
      (dashboard s user today).active_tasks =
        (DashboardViewSet.list s user today).active_tasks ∧
      (dashboard s user today).total_hours =
        (DashboardViewSet.list s user today).total_worked_hours ∧
      (dashboard s user today).week_hours =
        (DashboardViewSet.list s user today).hours_this_week ∧
      (dashboard s user today).recent_tasks =
        (DashboardViewSet.list s user today).recent_tasks ∧
      (dashboard s user today).recent_records =
        (DashboardViewSet.list s user today).recent_records :=
  ⟨rfl, rfl, rfl, rfl, rfl, rfl⟩

theorem full_clean_nil_iff (wt : Int) (rd D : Date) :
    timeRecord_full_clean wt rd D = [] ↔ 60 ≤ wt ∧ rd.toOrd ≤ D.toOrd := by
  unfold timeRecord_full_clean workedTime_field_errors timeRecord_clean
  split_ifs <;> simp_all <;> omega

theorem form_errors_nil_iff (wt : Int) (rd D : Date) :
    timeRecordForm_errors wt rd D = [] ↔ 60 ≤ wt ∧ rd.toOrd ≤ D.toOrd := by
  unfold timeRecordForm_errors workedTime_field_errors timeRecord_clean
    form_clean_worked_time form_clean_record_date
  split_ifs <;> simp_all <;> omega

theorem full_clean_mem_pos_iff (wt : Int) (rd D : Date) :
    ("worked_time", msgWorkedTimePositive) ∈ timeRecord_full_clean wt rd D ↔
      wt < 0 := by
  unfold timeRecord_full_clean workedTime_field_errors timeRecord_clean
  have hne : msgMinWorkedTime ≠ msgWorkedTimePositive := by decide
  have hne2 : msgFutureDate ≠ msgWorkedTimePositive := by decide
  split_ifs <;> simp_all [hne, hne2, msgWorkedTimePositive, msgMinWorkedTime,
    msgFutureDate] <;> omega

theorem form_mem_pos_iff (wt : Int) (rd D : Date) :
    ("worked_time", msgWorkedTimePositive) ∈ timeRecordForm_errors wt rd D ↔
      wt < 0 := by
  unfold timeRecordForm_errors workedTime_field_errors timeRecord_clean
    form_clean_worked_time form_clean_record_date
  have hne : msgMinWorkedTime ≠ msgWorkedTimePositive := by decide
  have hne2 : msgFutureDate ≠ msgWorkedTimePositive := by decide
  split_ifs <;> simp_all [hne, hne2, msgWorkedTimePositive, msgMinWorkedTime,
    msgFutureDate] <;> omega

theorem full_clean_mem_fut_iff (wt : Int) (rd D : Date) :
    ("record_date", msgFutureDate) ∈ timeRecord_full_clean wt rd D ↔
      D.toOrd < rd.toOrd ∧ 0 ≤ wt := by
  unfold timeRecord_full_clean workedTime_field_errors timeRecord_clean
  have hne : msgMinWorkedTime ≠ msgFutureDate := by decide
  split_ifs <;> simp_all [hne, msgWorkedTimePositive, msgMinWorkedTime,
    msgFutureDate] <;> omega

theorem form_mem_fut_iff (wt : Int) (rd D : Date) :
    ("record_date", msgFutureDate) ∈ timeRecordForm_errors wt rd D ↔
      D.toOrd < rd.toOrd := by
  unfold timeRecordForm_errors workedTime_field_errors timeRecord_clean
    form_clean_worked_time form_clean_record_date
  have hne : msgMinWorkedTime ≠ msgFutureDate := by decide
  split_ifs <;> simp_all [hne, msgWorkedTimePositive, msgMinWorkedTime,
    msgFutureDate] <;> omega

/-- Counterexample to C2: a `worked_time` of exactly zero (with today's
record date) does fail validation on every path, but never with the
message "Worked time must be greater than zero": Python's truthiness
check skips the custom rule at zero and the ≥ 1 minute field validator
reports its own message instead. -/
theorem claim_C2_counterexample :
    timeRecord_full_clean 0 (Date.mk 2024 6 19) (Date.mk 2024 6 19) ≠ [] ∧
    ("worked_time", msgWorkedTimePositive) ∉
      timeRecord_full_clean 0 (Date.mk 2024 6 19) (Date.mk 2024 6 19) ∧
    ("worked_time", msgWorkedTimePositive) ∉
      timeRecordForm_errors 0 (Date.mk 2024 6 19) (Date.mk 2024 6 19) := by
  refine ⟨by decide, by decide, by decide⟩

/-- C2 (amended): on both entry points a record is accepted exactly when
worked_time ≥ 1 minute and record_date ≤ today (so record_date = today is
accepted); the message "Worked time must be greater than zero" is raised
exactly when worked_time < 0 strictly (zero is rejected by the ≥ 1 minute
field validator with a different message); "Record date cannot be in the
future" is raised exactly when record_date > today, except that the
model/API path omits it when worked_time < 0, since `clean` raises the
worked-time error first. -/
theorem claim_C2_amended_validation (worked_time : Int) (record_date today : Date) :
    (timeRecord_full_clean worked_time record_date today = [] ↔
      60 ≤ worked_time ∧ record_date.toOrd ≤ today.toOrd) ∧
    (timeRecordForm_errors worked_time record_date today = [] ↔
      60 ≤ worked_time ∧ record_date.toOrd ≤ today.toOrd) ∧
    (("worked_time", msgWorkedTimePositive) ∈
        timeRecord_full_clean worked_time record_date today ↔ worked_time < 0) ∧
    (("worked_time", msgWorkedTimePositive) ∈
        timeRecordForm_errors worked_time record_date today ↔ worked_time < 0) ∧
    (("record_date", msgFutureDate) ∈
        timeRecordForm_errors worked_time record_date today ↔
      today.toOrd < record_date.toOrd) ∧
    (("record_date", msgFutureDate) ∈
        timeRecord_full_clean worked_time record_date today ↔
      today.toOrd < record_date.toOrd ∧ 0 ≤ worked_time) :=
  ⟨full_clean_nil_iff worked_time record_date today,
    form_errors_nil_iff worked_time record_date today,
    full_clean_mem_pos_iff worked_time record_date today,
    form_mem_pos_iff worked_time record_date today,
    form_mem_fut_iff worked_time record_date today,
    full_clean_mem_fut_iff worked_time record_date today⟩

/-- C9: every record persisted through `TimeRecord.save` satisfies
worked_time ≥ 1 minute and record_date ≤ today, because save
unconditionally runs full model validation before persisting; a save that
violates either condition leaves the store unchanged; and the invariant
is preserved for the whole record table across any save. -/
theorem claim_C9_save_validates (s : Store) (r : TimeRecord) (today : Date) :
    ((timeRecord_save s r today).2 = [] →
      60 ≤ r.worked_time ∧ r.record_date.toOrd ≤ today.toOrd) ∧
    ((timeRecord_save s r today).2 ≠ [] → (timeRecord_save s r today).1 = s) ∧
    ((∀ x ∈ s.records, 60 ≤ x.worked_time ∧ x.record_date.toOrd ≤ today.toOrd) →
      ∀ x ∈ (timeRecord_save s r today).1.records,
        60 ≤ x.worked_time ∧ x.record_date.toOrd ≤ today.toOrd) := by
  unfold timeRecord_save
  cases h : timeRecord_full_clean r.worked_time r.record_date today with
  | nil =>
    have hok := (full_clean_nil_iff r.worked_time r.record_date today).mp h
    refine ⟨fun _ => hok, fun hne => absurd rfl hne, fun hall x hx => ?_⟩
    by_cases hc : (s.records.any fun y => y.id == r.id) = true
    · rw [if_pos hc] at hx
      have hx' : x ∈ s.records.map (fun y => if y.id == r.id then r else y) := hx
      rcases List.mem_map.mp hx' with ⟨y, hy, hyx⟩
      by_cases hk : (y.id == r.id) = true
      · rw [if_pos hk] at hyx
        exact hyx ▸ hok
      · rw [if_neg hk] at hyx
        exact hyx ▸ hall y hy
    · rw [if_neg hc] at hx
      have hx' : x ∈ s.records ++ [r] := hx
      rcases List.mem_append.mp hx' with hy | hy
      · exact hall x hy
      · rcases List.mem_singleton.mp hy with rfl
        exact hok
  | cons e es =>
    exact ⟨fun hc => absurd hc (by simp), fun _ => rfl, fun hall x hx => hall x hx⟩

/-- Witness for C9: a concrete valid record saves cleanly and satisfies
the invariant. -/
theorem claim_C9_save_validates_witness :
    60 ≤ (3600 : Int) ∧ (Date.mk 2024 6 1).toOrd ≤ (Date.mk 2024 6 19).toOrd :=
  (claim_C9_save_validates (Store.mk [] []) ⟨1, 1, Date.mk 2024 6 1, 3600, "w", 0⟩
    (Date.mk 2024 6 19)).1 (by decide)

end TimeTracking
